import Mathlib

/-!
Shallow embedding of the IEnergy-Portal client code (src/auth.js and
src/salary-query/salary-query.js) together with proofs about the
specification's claims.

Modelling conventions, shared by the whole file:

* Browser storages (`sessionStorage` / `localStorage`) only ever hold the
  three v3 auth keys as far as the audited code is concerned; a storage is
  modelled as `Option StoreData` where `none` represents a storage that
  `safeStorage` reported unavailable (every access is then a no-op, exactly
  as in the `sGet`/`sSet`/`lGet`/`lSet` wrappers).
* The expiry value is written with `String(exp)` and read back with
  `Number(... || '0')`; since the program only ever writes stringified
  nonnegative integer timestamps, the string round trip is modelled by
  storing the numeric value directly (`Option Nat`, `none` = key absent,
  read back as `0` exactly like `Number(null || '0')`).
* `Date.now()` is passed in explicitly as a `Nat` parameter `now`.
* JavaScript truthiness of the read values: a number is truthy iff it is
  nonzero, a string is truthy iff it is nonempty.
* `String.prototype.trim` and `String.prototype.toLowerCase` are modelled
  by `jsTrim` / `jsToLower` below (ASCII-faithful).
* Legacy keys removed by `clearLegacy` are disjoint from the three v3 auth
  keys, so `clearLegacy` does not change the modelled state.
-/

namespace IEnergy

/-- JavaScript `String.prototype.trim` on the underlying character list:
drop whitespace from the front, then from the back. -/
def trimChars (l : List Char) : List Char :=
  List.rdropWhile Char.isWhitespace (l.dropWhile Char.isWhitespace)

/-- JavaScript `String.prototype.trim` (whitespace stripped at both ends). -/
def jsTrim (s : String) : String :=
  ⟨trimChars s.data⟩

/-- JavaScript `String.prototype.toLowerCase` (ASCII-faithful),
character by character on the underlying list. -/
def jsToLower (s : String) : String :=
  ⟨s.data.map Char.toLower⟩

/-! ## Auth state (src/auth.js, v3) -/

/-- Contents of one browser storage, restricted to the three v3 auth keys
(`ienergy_portal_session_expiry_v3` / `..._role_v3` / `..._user_v3`);
`none` = key absent. -/
structure StoreData where
  exp : Option Nat
  role : Option String
  user : Option String
deriving DecidableEq, Repr

/-- A storage with all three auth keys removed. -/
def StoreData.empty : StoreData := ⟨none, none, none⟩

/-- The two storages: `s` = sessionStorage (primary), `l` = localStorage
(secondary); `none` = storage unavailable (`safeStorage` returned null). -/
structure AuthState where
  s : Option StoreData
  l : Option StoreData
deriving DecidableEq, Repr

/-- The constant `AUTH_TTL_MS = 15 * 60 * 1000` (src/auth.js line 19). -/
def AUTH_TTL_MS : Nat := 15 * 60 * 1000

/-- One record of the hardcoded credential table. -/
structure UserRec where
  password : String
  role : String
deriving DecidableEq, Repr

/-- The static credential table `USERS` (src/auth.js lines 22–25):
`admin / iEnergy2023 -> admin`, `user / iEnergy -> employee`. -/
def USERS (u : String) : Option UserRec :=
  if u = "admin" then some ⟨"iEnergy2023", "admin"⟩
  else if u = "user" then some ⟨"iEnergy", "employee"⟩
  else none

/-- The triple produced by `readAuthFrom` (src/auth.js lines 78–83):
`exp = Number(get(EXP) || '0')`, `role = String(get(ROLE) || '')`,
`user = String(get(USER) || '')`. -/
structure AuthRead where
  exp : Nat
  role : String
  user : String
deriving DecidableEq, Repr

/-- Model of `readAuthFrom` over a possibly-unavailable storage: an unavailable
storage's getter returns null for every key, which reads as `0` / `""`. -/
def readAuthFrom (store : Option StoreData) : AuthRead :=
  { exp := (store.bind StoreData.exp).getD 0
    role := (store.bind StoreData.role).getD ""
    user := (store.bind StoreData.user).getD "" }

/-- Setting all three auth keys in one storage (no-op when unavailable). -/
def setStore (store : Option StoreData) (exp : Nat) (role user : String) :
    Option StoreData :=
  store.map fun _ => ⟨some exp, some role, some user⟩

/-- Model of `writeAuth(exp, role, user)` (src/auth.js lines 85–94): persist to both
stores when possible. -/
def writeAuth (st : AuthState) (exp : Nat) (role user : String) : AuthState :=
  ⟨setStore st.s exp role user, setStore st.l exp role user⟩

/-- Removing all three auth keys from one storage (no-op when unavailable). -/
def clearStore (store : Option StoreData) : Option StoreData :=
  store.map fun _ => StoreData.empty

/-- Model of `clearAuth()` (src/auth.js lines 96–104): remove the three keys from
both stores. -/
def clearAuth (st : AuthState) : AuthState :=
  ⟨clearStore st.s, clearStore st.l⟩

/-- Model of `logout()` (src/auth.js lines 149–151). -/
def logout (st : AuthState) : AuthState :=
  clearAuth st

/-- Model of `getExpiry()` (src/auth.js lines 113–119): prefer session storage,
fall back to local. -/
def getExpiry (st : AuthState) : Nat :=
  let ses := readAuthFrom st.s
  if ses.exp ≠ 0 then ses.exp
  else (readAuthFrom st.l).exp

/-- Model of `getRole()` (src/auth.js lines 121–126). -/
def getRole (st : AuthState) : String :=
  let ses := readAuthFrom st.s
  if ses.role ≠ "" then ses.role
  else (readAuthFrom st.l).role

/-- Model of `getUser()` (src/auth.js lines 128–133). -/
def getUser (st : AuthState) : String :=
  let ses := readAuthFrom st.s
  if ses.user ≠ "" then ses.user
  else (readAuthFrom st.l).user

/-- The condition `r.exp && r.exp > now() && r.role` tested by
`isSessionValid` on the result of `readAuthFrom`. -/
def readValid (r : AuthRead) (now : Nat) : Prop :=
  r.exp ≠ 0 ∧ now < r.exp ∧ r.role ≠ ""

instance (r : AuthRead) (now : Nat) : Decidable (readValid r now) := by
  unfold readValid; infer_instance

/-- Model of `isSessionValid()` (src/auth.js lines 135–147).  Returns the boolean
result together with the possibly-rehydrated state: when only the
secondary (local) store holds a valid session, `writeAuth` copies it back. -/
def isSessionValid (st : AuthState) (now : Nat) : Bool × AuthState :=
  let ses := readAuthFrom st.s
  if readValid ses now then (true, st)
  else
    let loc := readAuthFrom st.l
    if readValid loc now then (true, writeAuth st loc.exp loc.role loc.user)
    else (false, st)

/-- Result value of `login`: `{ok:false}` or
`{ok:true, expiry, role, user}`. -/
inductive LoginResult where
  | fail
  | success (expiry : Nat) (role : String) (user : String)
deriving DecidableEq, Repr

/-- Model of `login(username, password)` (src/auth.js lines 153–164).  `clearLegacy`
only touches keys disjoint from the modelled ones.  The username is made
forgiving (`trim().toLowerCase()`), the password must match exactly. -/
def login (st : AuthState) (username password : String) (now : Nat) :
    LoginResult × AuthState :=
  let u := jsToLower (jsTrim username)
  match USERS u with
  | none => (.fail, st)
  | some rec =>
      if password ≠ rec.password then (.fail, st)
      else
        let exp := now + AUTH_TTL_MS
        (.success exp rec.role u, writeAuth st exp rec.role u)

/-! ## Page-level gate DOM effects (src/auth.js, inside `ensureAuth`) -/

/-- The slice of the page state the gate manipulates: whether an
`#accessDenied` element exists, whether the app container is shown, whether
the denied overlay is shown, and whether a redirect to home occurred. -/
structure Dom where
  hasDenied : Bool
  appShown : Bool
  deniedShown : Bool
  redirected : Bool
deriving DecidableEq, Repr

/-- Model of `showDenied()` (src/auth.js lines 217–229): hide the auth overlay and
the app; show the denied overlay when present, otherwise redirect home. -/
def showDenied (d : Dom) : Dom :=
  let d1 : Dom := { d with appShown := false }
  if d.hasDenied then { d1 with deniedShown := true }
  else { d1 with redirected := true }

/-- Model of `enforceRole()` (src/auth.js lines 259–266): read the active role; when
it is not in the allow-list, call `showDenied` and return false. -/
def enforceRole (st : AuthState) (allowedRoles : List String) (d : Dom) :
    Bool × Dom :=
  let role := getRole st
  if role ∈ allowedRoles then (true, d)
  else (false, showDenied d)

/-! ## Salary query (src/salary-query/salary-query.js) -/

/-- A spreadsheet cell value as it comes out of `sheet_to_json`: a string
or a number (the fields the audited claims touch never carry date
objects). -/
inductive CellVal where
  | str (s : String)
  | num (n : Int)
deriving DecidableEq, Repr

/-- JavaScript `String(v)` on a cell value. -/
def jsString : CellVal → String
  | .str s => s
  | .num n => toString n

/-- JavaScript truthiness of a cell value (`''` and `0` are falsy). -/
def jsTruthy : CellVal → Bool
  | .str s => s ≠ ""
  | .num n => n ≠ 0

/-- A parsed spreadsheet row: an association of header name to cell value
(a JS object; keys are unique, first binding wins on lookup). -/
abbrev Row := List (String × CellVal)

/-- JS object property read `row[k]` (`none` = key absent). -/
def rowGet (row : Row) (k : String) : Option CellVal :=
  match row with
  | [] => none
  | (k', v) :: rest => if k' = k then some v else rowGet rest k

/-- Model of `normalizeCode(v)` (salary-query.js lines 28–31): `String(v).trim()`. -/
def normalizeCode (v : CellVal) : String :=
  jsTrim (jsString v)

/-- Model of `getField(row, keys)` (salary-query.js lines 65–70): first key that is
an own property of the row with a value other than `''`; otherwise `''`. -/
def getField (row : Row) (keys : List String) : CellVal :=
  match keys with
  | [] => .str ""
  | k :: ks =>
      match rowGet row k with
      | some v => if v ≠ .str "" then v else getField row ks
      | none => getField row ks

/-- The ordered header-synonym list for the employee-code key field
(salary-query.js line 133). -/
def CODE_KEYS : List String :=
  ["EmployeeCode", "Employee Code", "EmpCode", "Code", "Employee_ID", "EmployeeID"]

/-- The ordered header-synonym list for the name field
(salary-query.js line 210). -/
def NAME_KEYS : List String :=
  ["Name", "EmployeeName", "Employee Name"]

/-- The normalized code of a row, as computed by `loadFromRows`. -/
def rowCode (row : Row) : String :=
  normalizeCode (getField row CODE_KEYS)

/-- JS `Map.prototype.set`: replace the value in place when the key exists,
append otherwise. -/
def mapSet (m : List (String × Row)) (k : String) (v : Row) :
    List (String × Row) :=
  match m with
  | [] => [(k, v)]
  | (k', v') :: rest =>
      if k' = k then (k, v) :: rest else (k', v') :: mapSet rest k v

/-- JS `Map.prototype.get` (`none` = key absent). -/
def mapGet (m : List (String × Row)) (k : String) : Option Row :=
  match m with
  | [] => none
  | (k', v) :: rest => if k' = k then some v else mapGet rest k

/-- The module state of salary-query.js: the `employeeMap` index and the
`loaded` flag. -/
structure QueryState where
  employeeMap : List (String × Row)
  loaded : Bool
deriving DecidableEq, Repr

/-- One iteration of the row loop in `loadFromRows`
(salary-query.js lines 132–136): skip the row when its code normalizes to
`''`, otherwise `map.set(code, row)`. -/
def indexStep (m : List (String × Row)) (row : Row) : List (String × Row) :=
  let code := rowCode row
  if code = "" then m else mapSet m code row

/-- Model of `loadFromRows(rows)` (salary-query.js lines 130–141): build a fresh map
(skipping rows whose code normalizes to `''`, last set wins), install it,
and set `loaded`. -/
def loadFromRows (rows : List Row) : QueryState :=
  { employeeMap := rows.foldl indexStep []
    loaded := true }

/-- An `ArrayBuffer` holding a fetched payload, abstracted to what the
audited code observes: its byte length and what the external XLSX library
(`parseExcelArrayBuffer`, salary-query.js lines 143–149) produces from it:
`some rows` on success, `none` when parsing throws (including the
`'Excel file has no sheets'` case). -/
structure ExcelBuf where
  byteLength : Nat
  parseResult : Option (List Row)
deriving DecidableEq, Repr

/-- Model of `parseExcelArrayBuffer(buf)` over the abstract buffer. -/
def parseExcelArrayBuffer (buf : ExcelBuf) : Option (List Row) :=
  buf.parseResult

/-- What one candidate URL's fetch yields: a thrown error (from `fetch` or
`arrayBuffer`), or a response with its `ok` flag and body. -/
inductive FetchOutcome where
  | error
  | response (ok : Bool) (buf : ExcelBuf)
deriving DecidableEq, Repr

/-- A candidate is accepted by `fetchExcelWithFallback` iff its response is
ok and its body has at least 64 bytes. -/
def candidateUsable : FetchOutcome → Bool
  | .error => false
  | .response ok buf => ok && decide (64 ≤ buf.byteLength)

/-- Model of `fetchExcelWithFallback()` (salary-query.js lines 105–128) over the
ordered candidate outcomes: return the index and body of the first
candidate whose response is ok with at least 64 bytes (`continue`
otherwise); `none` models the final `throw`. -/
def fetchExcelWithFallback : List FetchOutcome → Option (Nat × ExcelBuf)
  | [] => none
  | o :: rest =>
      match o with
      | .error => (fetchExcelWithFallback rest).map fun p => (p.1 + 1, p.2)
      | .response ok buf =>
          if !ok then (fetchExcelWithFallback rest).map fun p => (p.1 + 1, p.2)
          else if buf.byteLength < 64 then
            (fetchExcelWithFallback rest).map fun p => (p.1 + 1, p.2)
          else some (0, buf)

/-- Model of `loadEmployees()` (salary-query.js lines 151–181): no-op when already
loaded; otherwise fetch with fallback and parse, and on any thrown error
(all candidates failed, or the chosen payload does not parse) leave the
index and flag unchanged (the catch only writes a status message). -/
def loadEmployees (st : QueryState) (env : List FetchOutcome) : QueryState :=
  if st.loaded then st
  else
    match fetchExcelWithFallback env with
    | none => st
    | some (_, buf) =>
        match parseExcelArrayBuffer buf with
        | none => st
        | some rows => loadFromRows rows

/-- Model of `loadEmployeesFromFile(file)` (salary-query.js lines 183–196): no-op
without a file; parse first (a throw leaves everything unchanged), then
reset `loaded` and the map and rebuild from the file's rows alone. -/
def loadEmployeesFromFile (st : QueryState) (file : Option ExcelBuf) :
    QueryState :=
  match file with
  | none => st
  | some buf =>
      match parseExcelArrayBuffer buf with
      | none => st
      | some rows => loadFromRows rows

/-- Outcome of `handleSearch` as visible to the user. -/
inductive SearchResult where
  | notLoaded
  | emptyCode
  | notFound (code : String)
  | found (row : Row)
deriving DecidableEq, Repr

/-- Model of `handleSearch()` (salary-query.js lines 234–253): ensure loaded, bail
out if still not loaded, normalize the input, reject an empty code, look
the code up, and render found/not-found. -/
def handleSearch (st : QueryState) (env : List FetchOutcome)
    (input : String) : SearchResult × QueryState :=
  let st1 := loadEmployees st env
  if !st1.loaded then (.notLoaded, st1)
  else
    let code := normalizeCode (.str input)
    if code = "" then (.emptyCode, st1)
    else
      match mapGet st1.employeeMap code with
      | none => (.notFound code, st1)
      | some row => (.found row, st1)

/-- The name rendered by `showRow` (salary-query.js lines 210, 216):
`name ? String(name) : '—'` with `name = getField(row, NAME_KEYS)`. -/
def renderedName (row : Row) : String :=
  let name := getField row NAME_KEYS
  if jsTruthy name then jsString name else "—"

/-! ## Helper lemmas -/

/-- The function `trimChars` is idempotent: a trimmed character list has no leading or
trailing whitespace left to strip. -/
theorem trimChars_idem (l : List Char) : trimChars (trimChars l) = trimChars l := by
  unfold trimChars
  have h1 : (List.rdropWhile Char.isWhitespace (l.dropWhile Char.isWhitespace)).dropWhile
        Char.isWhitespace
      = List.rdropWhile Char.isWhitespace (l.dropWhile Char.isWhitespace) := by
    rw [List.dropWhile_eq_self_iff]
    intro hl
    have hpre := List.rdropWhile_prefix Char.isWhitespace (l.dropWhile Char.isWhitespace)
    have hlen : 0 < (l.dropWhile Char.isWhitespace).length := lt_of_lt_of_le hl hpre.length_le
    have hz := List.dropWhile_get_zero_not Char.isWhitespace l hlen
    simpa [List.get_eq_getElem, hpre.getElem hl] using hz
  rw [h1, List.rdropWhile_idempotent]

/-- The function `jsTrim` is idempotent. -/
theorem jsTrim_idem (s : String) : jsTrim (jsTrim s) = jsTrim s :=
  congrArg String.mk (trimChars_idem s.data)

/-! ## C1 -/

/-- Written after the spec's words, for comparison with `login`: a
(username, password) pair is valid iff the trimmed, case-insensitively
matched username is a key of the credential table and the password equals
that record's password character for character; the associated value is
the role stored for that username. -/
def specCredentialRole (username password : String) : Option String :=
  match USERS (jsToLower (jsTrim username)) with
  | some rec => if password = rec.password then some rec.role else none
  | none => none

/-- C1: for every (username, password) pair accepted by the credential
table (trimmed, case-insensitive username; exact password), `login`
returns ok with the role stored for that username; for every other pair
it returns `{ok:false}`. -/
theorem login_matches_credential_table (st : AuthState)
    (username password : String) (now : Nat) :
    (login st username password now).1 =
      match specCredentialRole username password with
      | some role => .success (now + AUTH_TTL_MS) role (jsToLower (jsTrim username))
      | none => .fail := by
  simp only [login, specCredentialRole]
  cases hU : USERS (jsToLower (jsTrim username)) with
  | none => simp
  | some rec =>
      by_cases hp : password = rec.password <;> simp [hp]

/-! ## C4 -/

/-- C4: a rejected login leaves the session state (both stores) exactly as
it was. -/
theorem login_fail_leaves_state (st : AuthState) (username password : String)
    (now : Nat) (h : (login st username password now).1 = .fail) :
    (login st username password now).2 = st := by
  simp only [login] at h ⊢
  cases hU : USERS (jsToLower (jsTrim username)) with
  | none => simp
  | some rec =>
      rw [hU] at h
      by_cases hp : password = rec.password
      · simp [hp] at h
      · simp [hp]

/-- Witness for C4 at a concrete input: a wrong password for `admin`
fails and preserves a pre-existing session. -/
theorem login_fail_leaves_state_witness :
    (login ⟨some ⟨some 5, some "admin", some "admin"⟩, none⟩ "admin" "wrong" 0).1
        = .fail
    ∧ (login ⟨some ⟨some 5, some "admin", some "admin"⟩, none⟩ "admin" "wrong" 0).2
        = ⟨some ⟨some 5, some "admin", some "admin"⟩, none⟩ :=
  ⟨by decide, login_fail_leaves_state _ "admin" "wrong" 0 (by decide)⟩

/-! ## C10 -/

/-- C10: immediately after `logout()`, regardless of the prior session
state and of storage availability, `isSessionValid()` is false and
`getRole()`/`getUser()` return the empty string: all three keys are
removed from both stores. -/
theorem logout_invalidates (st : AuthState) (now : Nat) :
    (isSessionValid (logout st) now).1 = false
    ∧ getRole (logout st) = ""
    ∧ getUser (logout st) = "" := by
  obtain ⟨s, l⟩ := st
  cases s <;> cases l <;>
    simp [logout, clearAuth, clearStore, isSessionValid, readAuthFrom, readValid,
      getRole, getUser, StoreData.empty]

/-! ## C8 -/

/-- C8: role enforcement denies every session whose active role is not in
the allow-list: `enforceRole` returns false, the app content is not
shown, and either the denied overlay is shown or the page redirects to
home. -/
theorem enforceRole_denies (st : AuthState) (allowedRoles : List String)
    (d : Dom) (h : getRole st ∉ allowedRoles) :
    (enforceRole st allowedRoles d).1 = false
    ∧ (enforceRole st allowedRoles d).2.appShown = false
    ∧ ((enforceRole st allowedRoles d).2.deniedShown = true
        ∨ (enforceRole st allowedRoles d).2.redirected = true) := by
  unfold enforceRole showDenied
  by_cases hd : d.hasDenied <;> simp [h, hd]

/-- Witness for C8 at a concrete input: with the gate initialized with
allow-list `['admin']`, a stored role of `"employee"` is denied (overlay
page), and a stored role of `"user"` is denied (redirect page). -/
theorem enforceRole_denies_witness :
    ((enforceRole ⟨some ⟨some 99, some "employee", some "user"⟩, none⟩ ["admin"]
        ⟨true, true, false, false⟩).1 = false
      ∧ (enforceRole ⟨some ⟨some 99, some "employee", some "user"⟩, none⟩ ["admin"]
          ⟨true, true, false, false⟩).2.appShown = false
      ∧ ((enforceRole ⟨some ⟨some 99, some "employee", some "user"⟩, none⟩ ["admin"]
            ⟨true, true, false, false⟩).2.deniedShown = true
          ∨ (enforceRole ⟨some ⟨some 99, some "employee", some "user"⟩, none⟩ ["admin"]
              ⟨true, true, false, false⟩).2.redirected = true))
    ∧ ((enforceRole ⟨none, some ⟨some 99, some "user", some "user"⟩⟩ ["admin"]
        ⟨false, true, false, false⟩).1 = false
      ∧ (enforceRole ⟨none, some ⟨some 99, some "user", some "user"⟩⟩ ["admin"]
          ⟨false, true, false, false⟩).2.appShown = false
      ∧ ((enforceRole ⟨none, some ⟨some 99, some "user", some "user"⟩⟩ ["admin"]
            ⟨false, true, false, false⟩).2.deniedShown = true
          ∨ (enforceRole ⟨none, some ⟨some 99, some "user", some "user"⟩⟩ ["admin"]
              ⟨false, true, false, false⟩).2.redirected = true)) :=
  ⟨enforceRole_denies _ ["admin"] _ (by decide),
   enforceRole_denies _ ["admin"] _ (by decide)⟩

/-! ## C3 -/

/-- C3: `isSessionValid` returns true iff the primary or, failing that,
the secondary store holds a set expiry that is strictly in the future
together with a non-empty role; when only the secondary store qualifies
and the primary store is available, the primary store is rehydrated with
the secondary store's expiry, role and user; when neither qualifies, the
call returns false and leaves the state untouched. -/
theorem isSessionValid_characterization (st : AuthState) (now : Nat) :
    ((isSessionValid st now).1 = true ↔
      (readValid (readAuthFrom st.s) now ∨ readValid (readAuthFrom st.l) now))
    ∧ (¬ readValid (readAuthFrom st.s) now → readValid (readAuthFrom st.l) now →
        st.s.isSome = true →
        readAuthFrom (isSessionValid st now).2.s = readAuthFrom st.l)
    ∧ (¬ readValid (readAuthFrom st.s) now → ¬ readValid (readAuthFrom st.l) now →
        isSessionValid st now = (false, st)) := by
  refine ⟨?_, ?_, ?_⟩
  · by_cases hs : readValid (readAuthFrom st.s) now
    · simp [isSessionValid, hs]
    · by_cases hl : readValid (readAuthFrom st.l) now <;> simp [isSessionValid, hs, hl]
  · intro hs hl hsome
    obtain ⟨d, hd⟩ := Option.isSome_iff_exists.mp hsome
    simp only [isSessionValid]
    rw [if_neg hs, if_pos hl]
    simp [writeAuth, setStore, hd, readAuthFrom]
  · intro hs hl
    simp only [isSessionValid]
    rw [if_neg hs, if_neg hl]

/-- A concrete state whose primary store is empty and whose secondary
store holds a future session (used by the C3 witness). -/
def rehydrateState : AuthState :=
  ⟨some StoreData.empty, some ⟨some 10, some "admin", some "bob"⟩⟩

/-- A concrete state with no valid session anywhere (used by the C3
witness). -/
def invalidState : AuthState :=
  ⟨some StoreData.empty, none⟩

/-- Witness for C3 at concrete inputs: the validity characterization at a
state that rehydrates, the rehydration equation there, and the
no-session case leaving the state untouched. -/
theorem isSessionValid_characterization_witness :
    ((isSessionValid rehydrateState 5).1 = true ↔
      (readValid (readAuthFrom rehydrateState.s) 5
        ∨ readValid (readAuthFrom rehydrateState.l) 5))
    ∧ readAuthFrom (isSessionValid rehydrateState 5).2.s
        = readAuthFrom rehydrateState.l
    ∧ isSessionValid invalidState 5 = (false, invalidState) :=
  ⟨(isSessionValid_characterization rehydrateState 5).1,
   (isSessionValid_characterization rehydrateState 5).2.1
     (by decide) (by decide) (by decide),
   (isSessionValid_characterization invalidState 5).2.2
     (by decide) (by decide)⟩

/-! ## C2 -/

/-- After `writeAuth` with a nonzero expiry and a non-empty role into at
least one available store, the session reads as valid strictly before the
expiry. -/
theorem isSessionValid_writeAuth_valid (st : AuthState) (exp : Nat)
    (role user : String) (t : Nat)
    (havail : st.s.isSome = true ∨ st.l.isSome = true)
    (hrole : role ≠ "") (hexp : exp ≠ 0) (ht : t < exp) :
    (isSessionValid (writeAuth st exp role user) t).1 = true := by
  have hv : readValid ⟨exp, role, user⟩ t := ⟨hexp, ht, hrole⟩
  have h0 : ¬ readValid ⟨0, "", ""⟩ t := by simp [readValid]
  obtain ⟨s, l⟩ := st
  cases s with
  | some d => simp [writeAuth, setStore, isSessionValid, readAuthFrom, hv]
  | none =>
      cases l with
      | some d => simp [writeAuth, setStore, isSessionValid, readAuthFrom, hv, h0]
      | none => simp at havail

/-- After `writeAuth`, the session reads as invalid from the expiry
instant onwards, whatever the storage availability. -/
theorem isSessionValid_writeAuth_expired (st : AuthState) (exp : Nat)
    (role user : String) (t : Nat) (hle : exp ≤ t) :
    (isSessionValid (writeAuth st exp role user) t).1 = false := by
  have h1 : ¬ readValid ⟨exp, role, user⟩ t := by
    simp only [readValid]
    rintro ⟨-, hlt, -⟩
    omega
  have h0 : ¬ readValid ⟨0, "", ""⟩ t := by simp [readValid]
  obtain ⟨s, l⟩ := st
  cases s <;> cases l <;>
    simp [writeAuth, setStore, isSessionValid, readAuthFrom, h0, h1]

/-- A call to `isSessionValid` never changes the expiry stored in either store of a
state produced by `writeAuth`: rehydration copies the same value back. -/
theorem isSessionValid_writeAuth_exp_pres (st : AuthState) (exp : Nat)
    (role user : String) (t : Nat) :
    (isSessionValid (writeAuth st exp role user) t).2.s.bind StoreData.exp
        = (writeAuth st exp role user).s.bind StoreData.exp
    ∧ (isSessionValid (writeAuth st exp role user) t).2.l.bind StoreData.exp
        = (writeAuth st exp role user).l.bind StoreData.exp := by
  obtain ⟨s, l⟩ := st
  cases s <;> cases l <;>
    · simp only [isSessionValid, writeAuth, setStore]
      split_ifs <;> simp_all [readAuthFrom, readValid]

/-- On a matching credential, `login` returns the success record and
writes a fresh session into both stores. -/
theorem login_success_state (st : AuthState) (username password : String)
    (now : Nat) (rec : UserRec)
    (hU : USERS (jsToLower (jsTrim username)) = some rec)
    (hp : password = rec.password) :
    login st username password now =
      (.success (now + AUTH_TTL_MS) rec.role (jsToLower (jsTrim username)),
        writeAuth st (now + AUTH_TTL_MS) rec.role (jsToLower (jsTrim username))) := by
  simp only [login, hU]
  rw [if_neg fun h => h hp]

/-- C2: a successful login at time `T` (with some storage available)
stores expiry exactly `T + AUTH_TTL_MS` in every available store; the
session is valid at `T + AUTH_TTL_MS - 1`, invalid at every time from
`T + AUTH_TTL_MS` on, and no later `isSessionValid` call changes the
stored expiry. -/
theorem login_session_ttl (st : AuthState) (username password : String)
    (T : Nat) (havail : st.s.isSome = true ∨ st.l.isSome = true)
    (hok : (login st username password T).1 ≠ .fail) :
    ((login st username password T).2.s.bind StoreData.exp
        = st.s.map fun _ => T + AUTH_TTL_MS)
    ∧ ((login st username password T).2.l.bind StoreData.exp
        = st.l.map fun _ => T + AUTH_TTL_MS)
    ∧ (isSessionValid (login st username password T).2
        (T + AUTH_TTL_MS - 1)).1 = true
    ∧ (∀ t, T + AUTH_TTL_MS ≤ t →
        (isSessionValid (login st username password T).2 t).1 = false)
    ∧ (∀ t,
        (isSessionValid (login st username password T).2 t).2.s.bind StoreData.exp
          = (login st username password T).2.s.bind StoreData.exp
        ∧ (isSessionValid (login st username password T).2 t).2.l.bind StoreData.exp
          = (login st username password T).2.l.bind StoreData.exp) := by
  cases hU : USERS (jsToLower (jsTrim username)) with
  | none => exact absurd (by simp [login, hU]) hok
  | some rec =>
      by_cases hp : password = rec.password
      · have hrole : rec.role ≠ "" := by
          unfold USERS at hU
          split_ifs at hU
          · obtain rfl := Option.some.inj hU
            decide
          · obtain rfl := Option.some.inj hU
            decide
        have hTTL : 0 < AUTH_TTL_MS := by decide
        rw [login_success_state st username password T rec hU hp]
        refine ⟨?_, ?_, ?_, ?_, ?_⟩
        · obtain ⟨s, l⟩ := st
          cases s <;> simp [writeAuth, setStore]
        · obtain ⟨s, l⟩ := st
          cases l <;> simp [writeAuth, setStore]
        · exact isSessionValid_writeAuth_valid st _ _ _ _ havail hrole
            (by omega) (by omega)
        · exact fun t ht => isSessionValid_writeAuth_expired st _ _ _ t ht
        · exact fun t => isSessionValid_writeAuth_exp_pres st _ _ _ t
      · refine absurd ?_ hok
        simp only [login, hU]
        rw [if_pos hp]

/-- A concrete state with both storages available and no session (used by
the C2 witness). -/
def bothAvailState : AuthState :=
  ⟨some StoreData.empty, some StoreData.empty⟩

/-- Witness for C2 at a concrete input: logging in as `admin` at
`T = 1000` stores expiry `1000 + AUTH_TTL_MS`, is valid one millisecond
before expiry, invalid at expiry, and a later `isSessionValid` call keeps
the stored expiry. -/
theorem login_session_ttl_witness :
    ((login bothAvailState "admin" "iEnergy2023" 1000).2.s.bind StoreData.exp
        = bothAvailState.s.map fun _ => 1000 + AUTH_TTL_MS)
    ∧ (isSessionValid (login bothAvailState "admin" "iEnergy2023" 1000).2
        (1000 + AUTH_TTL_MS - 1)).1 = true
    ∧ (isSessionValid (login bothAvailState "admin" "iEnergy2023" 1000).2
        (1000 + AUTH_TTL_MS)).1 = false
    ∧ (isSessionValid (login bothAvailState "admin" "iEnergy2023" 1000).2
          2000000).2.s.bind StoreData.exp
        = (login bothAvailState "admin" "iEnergy2023" 1000).2.s.bind StoreData.exp :=
  ⟨(login_session_ttl bothAvailState "admin" "iEnergy2023" 1000
      (Or.inl (by decide)) (by decide)).1,
   (login_session_ttl bothAvailState "admin" "iEnergy2023" 1000
      (Or.inl (by decide)) (by decide)).2.2.1,
   (login_session_ttl bothAvailState "admin" "iEnergy2023" 1000
      (Or.inl (by decide)) (by decide)).2.2.2.1 (1000 + AUTH_TTL_MS) (le_refl _),
   ((login_session_ttl bothAvailState "admin" "iEnergy2023" 1000
      (Or.inl (by decide)) (by decide)).2.2.2.2 2000000).1⟩

/-! ## C5 -/

/-- C5: once the `loaded` flag is set, `loadEmployees` is a no-op whatever
the network candidates would return; `loadEmployeesFromFile` with a
parseable file rebuilds the state from only that file's rows, discarding
the previous index. -/
theorem loadEmployees_idempotent_file_replaces :
    (∀ (st : QueryState) (env : List FetchOutcome), st.loaded = true →
        loadEmployees st env = st)
    ∧ (∀ (st : QueryState) (buf : ExcelBuf) (rows : List Row),
        buf.parseResult = some rows →
        loadEmployeesFromFile st (some buf) = loadFromRows rows) := by
  constructor
  · intro st env h
    simp [loadEmployees, h]
  · intro st buf rows h
    simp [loadEmployeesFromFile, parseExcelArrayBuffer, h]

/-- Row `{EmployeeCode:"E1", Name:"A"}` from the spec's scenario. -/
def sampleRow1 : Row := [("EmployeeCode", .str "E1"), ("Name", .str "A")]

/-- Row `{EmpCode:"E2", Name:"B"}` from the spec's scenario. -/
def sampleRow2 : Row := [("EmpCode", .str "E2"), ("Name", .str "B")]

/-- The state after loading the spec's two sample rows. -/
def sampleState : QueryState := loadFromRows [sampleRow1, sampleRow2]

/-- Witness for C5 at concrete inputs: a loaded state is untouched by a
reload, and a file upload over a loaded state rebuilds from the file's
rows only. -/
theorem loadEmployees_idempotent_file_replaces_witness :
    loadEmployees (loadFromRows [sampleRow1]) [] = loadFromRows [sampleRow1]
    ∧ loadEmployeesFromFile (loadFromRows [sampleRow1])
        (some ⟨100, some [sampleRow2]⟩) = loadFromRows [sampleRow2] :=
  ⟨loadEmployees_idempotent_file_replaces.1 (loadFromRows [sampleRow1]) [] rfl,
   loadEmployees_idempotent_file_replaces.2 (loadFromRows [sampleRow1])
     ⟨100, some [sampleRow2]⟩ [sampleRow2] rfl⟩

/-! ## C6 -/

/-- C6: after loading the spec's two sample rows, searching `"E1"` finds
the first row (rendered name `"A"`), searching `"E2"` finds the second
row through the `EmpCode` header synonym (rendered name `"B"`),
searching `"E3"` reports not-found, and searching `"  E1  "` still
matches because the input is trimmed before lookup. -/
theorem search_sample_rows (env : List FetchOutcome) :
    handleSearch sampleState env "E1" = (.found sampleRow1, sampleState)
    ∧ renderedName sampleRow1 = "A"
    ∧ handleSearch sampleState env "E2" = (.found sampleRow2, sampleState)
    ∧ renderedName sampleRow2 = "B"
    ∧ handleSearch sampleState env "E3" = (.notFound "E3", sampleState)
    ∧ handleSearch sampleState env "  E1  " = (.found sampleRow1, sampleState) :=
  ⟨rfl, rfl, rfl, rfl, rfl, rfl⟩


/-! ## C7 -/

/-- An ok response of 100 bytes whose payload the XLSX parser rejects
(used by the C7 theorems). -/
def badBuf : ExcelBuf := ⟨100, none⟩

/-- The rows of the parseable second candidate (used by the C7 theorems). -/
def goodRows : List Row := [[("EmployeeCode", .str "E7"), ("Name", .str "G")]]

/-- An ok response of 100 bytes that parses to `goodRows` (used by the C7
theorems). -/
def goodBuf : ExcelBuf := ⟨100, some goodRows⟩

/-- A candidate list whose first entry is large but unparseable and whose
second entry is parseable (used by the C7 theorems). -/
def mixedEnv : List FetchOutcome :=
  [.response true badBuf, .response true goodBuf]

/-- Counterexample to C7 as stated: with an unparseable 100-byte first
candidate and a parseable second candidate, the fallback commits to the
first candidate (index 0), and the load ends unloaded without ever using
the parseable candidate — so the load does not stop at the first
candidate that yields a parseable payload. -/
theorem fetch_commits_before_parse :
    parseExcelArrayBuffer goodBuf = some goodRows
    ∧ fetchExcelWithFallback mixedEnv = some (0, badBuf)
    ∧ parseExcelArrayBuffer badBuf = none
    ∧ loadEmployees ⟨[], false⟩ mixedEnv = ⟨[], false⟩ := by
  decide

/-- C7 (amended): the fallback skips exactly the candidates that error,
respond non-ok, or deliver fewer than 64 bytes, and commits to the first
candidate with an ok response of at least 64 bytes regardless of whether
it parses; if every candidate is skipped the fetch throws, and if the
committed payload fails to parse the load ends with the state
unchanged, without trying later candidates. -/
theorem fetch_first_usable (env : List FetchOutcome) :
    ((∀ o ∈ env, candidateUsable o = false) → fetchExcelWithFallback env = none)
    ∧ (∀ i buf, env.get? i = some (.response true buf) → 64 ≤ buf.byteLength →
        (∀ j o, j < i → env.get? j = some o → candidateUsable o = false) →
        fetchExcelWithFallback env = some (i, buf))
    ∧ (∀ (st : QueryState) i buf, st.loaded = false →
        fetchExcelWithFallback env = some (i, buf) → buf.parseResult = none →
        loadEmployees st env = st) := by
  refine ⟨?_, ?_, ?_⟩
  · intro hall
    induction env with
    | nil => rfl
    | cons o rest ih =>
        have ho := hall o (List.mem_cons_self o rest)
        have hrest := ih fun x hx => hall x (List.mem_cons_of_mem o hx)
        cases o with
        | error => simp [fetchExcelWithFallback, hrest]
        | response ok buf =>
            simp only [candidateUsable, Bool.and_eq_false_iff] at ho
            cases ho with
            | inl hok =>
                subst hok
                simp [fetchExcelWithFallback, hrest]
            | inr hlen =>
                have hlt : buf.byteLength < 64 := by
                  simpa using of_decide_eq_false hlen
                cases ok <;>
                  simp [fetchExcelWithFallback, hrest, hlt, Nat.not_le_of_lt]
  · intro i buf hi hlen hprefix
    induction env generalizing i with
    | nil => simp at hi
    | cons o rest ih =>
        cases i with
        | zero =>
            simp only [List.get?] at hi
            obtain rfl := Option.some.inj hi
            have hnotlt : ¬ buf.byteLength < 64 := Nat.not_lt_of_le hlen
            simp [fetchExcelWithFallback, hnotlt]
        | succ i' =>
            have h0 : candidateUsable o = false :=
              hprefix 0 o (Nat.succ_pos i') rfl
            have hrest := ih i' hi fun j oj hj hoj =>
              hprefix (j + 1) oj (Nat.succ_lt_succ hj) hoj
            cases o with
            | error => simp [fetchExcelWithFallback, hrest]
            | response ok buf2 =>
                simp only [candidateUsable, Bool.and_eq_false_iff] at h0
                cases h0 with
                | inl hok =>
                    subst hok
                    simp [fetchExcelWithFallback, hrest]
                | inr hlen2 =>
                    have hlt : buf2.byteLength < 64 := by
                      simpa using of_decide_eq_false hlen2
                    cases ok <;>
                      simp [fetchExcelWithFallback, hrest, hlt, Nat.not_le_of_lt]
  · intro st i buf hld hfetch hparse
    simp [loadEmployees, hld, hfetch, parseExcelArrayBuffer, hparse]

/-- A candidate list where every entry fails (used by the C7 witness). -/
def allFailEnv : List FetchOutcome := [.error, .response false goodBuf]

/-- Witness for C7 (amended) at concrete inputs: a list of failing
candidates makes the fetch throw; in `mixedEnv` the fallback commits to
index 0; and with an unloaded state the unparseable committed payload
leaves the state unchanged. -/
theorem fetch_first_usable_witness :
    fetchExcelWithFallback allFailEnv = none
    ∧ fetchExcelWithFallback mixedEnv = some (0, badBuf)
    ∧ loadEmployees ⟨[], false⟩ mixedEnv = ⟨[], false⟩ :=
  ⟨(fetch_first_usable allFailEnv).1 (by decide),
   (fetch_first_usable mixedEnv).2.1 0 badBuf rfl (by decide)
     (fun j o hj _ => absurd hj (Nat.not_lt_zero j)),
   (fetch_first_usable mixedEnv).2.2 ⟨[], false⟩ 0 badBuf rfl
     ((fetch_first_usable mixedEnv).2.1 0 badBuf rfl (by decide)
       (fun j o hj _ => absurd hj (Nat.not_lt_zero j))) rfl⟩


/-! ## C9 -/

/-- Lookup via `mapGet` after `mapSet`: the set key now maps to the new row, other
keys are unaffected. -/
theorem mapGet_mapSet (m : List (String × Row)) (k : String) (v : Row)
    (q : String) :
    mapGet (mapSet m k v) q = if q = k then some v else mapGet m q := by
  induction m with
  | nil =>
      rcases eq_or_ne q k with rfl | hq
      · simp [mapSet, mapGet]
      · simp [mapSet, mapGet, hq, Ne.symm hq]
  | cons p rest ih =>
      obtain ⟨a, b⟩ := p
      by_cases ha : a = k
      · subst ha
        rcases eq_or_ne q a with rfl | hq
        · simp [mapSet, mapGet]
        · simp [mapSet, mapGet, hq, Ne.symm hq]
      · rcases eq_or_ne q k with rfl | hq
        · simp [mapSet, mapGet, ha, ih]
        · simp [mapSet, mapGet, ha, ih, hq]

/-- Every binding of `mapSet m k v` is a binding of `m` or carries the
key `k`. -/
theorem mem_mapSet (m : List (String × Row)) (k : String) (v : Row)
    (q : String) (r : Row) (h : (q, r) ∈ mapSet m k v) :
    (q, r) ∈ m ∨ q = k := by
  induction m with
  | nil =>
      simp [mapSet] at h
      exact Or.inr h.1
  | cons p rest ih =>
      obtain ⟨a, b⟩ := p
      by_cases ha : a = k
      · subst ha
        simp only [mapSet, if_pos rfl] at h
        rcases List.mem_cons.mp h with h1 | h2
        · exact Or.inr (congrArg Prod.fst h1)
        · exact Or.inl (List.mem_cons_of_mem _ h2)
      · simp only [mapSet, if_neg ha] at h
        rcases List.mem_cons.mp h with h1 | h2
        · exact Or.inl (List.mem_cons.mpr (Or.inl h1))
        · rcases ih h2 with hm | rfl
          · exact Or.inl (List.mem_cons_of_mem _ hm)
          · exact Or.inr rfl

/-- The last row of `rows`, in source order, whose key field normalizes to
`code` (the spec-side reading of "last set wins"). -/
def lastRowFor (rows : List Row) (code : String) : Option Row :=
  rows.foldl (fun acc r => if rowCode r = code then some r else acc) none

/-- The fold defining `lastRowFor`, started from an arbitrary
accumulator. -/
theorem lastRowFor_foldl (rows : List Row) (code : String) (acc : Option Row) :
    rows.foldl (fun a r => if rowCode r = code then some r else a) acc
      = match lastRowFor rows code with
        | some r => some r
        | none => acc := by
  induction rows generalizing acc with
  | nil => simp [lastRowFor]
  | cons row rest ih =>
      rw [List.foldl_cons, ih]
      have hcons : lastRowFor (row :: rest) code
          = rest.foldl (fun a r => if rowCode r = code then some r else a)
              (if rowCode row = code then some row else none) := rfl
      rw [hcons, ih]
      cases h : lastRowFor rest code <;> by_cases hc : rowCode row = code <;> simp [hc]

/-- Unfolding `lastRowFor` one row at a time. -/
theorem lastRowFor_cons (row : Row) (rest : List Row) (code : String) :
    lastRowFor (row :: rest) code
      = match lastRowFor rest code with
        | some r => some r
        | none => if rowCode row = code then some row else none := by
  have hcons : lastRowFor (row :: rest) code
      = rest.foldl (fun a r => if rowCode r = code then some r else a)
          (if rowCode row = code then some row else none) := rfl
  rw [hcons, lastRowFor_foldl]

/-- Looking up a non-empty code in the index fold: the last matching row
wins, with the accumulator as fallback. -/
theorem mapGet_foldl_indexStep (rows : List Row) (acc : List (String × Row))
    (code : String) (hcode : code ≠ "") :
    mapGet (rows.foldl indexStep acc) code
      = match lastRowFor rows code with
        | some r => some r
        | none => mapGet acc code := by
  induction rows generalizing acc with
  | nil => simp [lastRowFor]
  | cons row rest ih =>
      rw [List.foldl_cons, ih, lastRowFor_cons]
      cases h : lastRowFor rest code with
      | some r => simp
      | none =>
          by_cases hc : rowCode row = code
          · simp [indexStep, hc, hcode, mapGet_mapSet]
          · by_cases h0 : rowCode row = ""
            · simp only [indexStep, h0, if_pos rfl]
              simp [Ne.symm hcode]
            · simp only [indexStep, if_neg h0]
              rw [mapGet_mapSet]
              have hqc : code ≠ rowCode row := fun he => hc he.symm
              simp [hqc, hc]

/-- Keys produced by the index fold are non-empty and trimmed, provided
the accumulator's keys already are. -/
theorem foldl_indexStep_keys (rows : List Row) (acc : List (String × Row))
    (hacc : ∀ q r, (q, r) ∈ acc → q ≠ "" ∧ jsTrim q = q) :
    ∀ q r, (q, r) ∈ rows.foldl indexStep acc → q ≠ "" ∧ jsTrim q = q := by
  induction rows generalizing acc with
  | nil => exact hacc
  | cons row rest ih =>
      intro q r h
      rw [List.foldl_cons] at h
      refine ih (indexStep acc row) ?_ q r h
      intro q' r' h'
      by_cases hc : rowCode row = ""
      · simp only [indexStep, hc, if_pos rfl] at h'
        exact hacc q' r' h'
      · simp only [indexStep, if_neg hc] at h'
        rcases mem_mapSet acc (rowCode row) row q' r' h' with hm | rfl
        · exact hacc q' r' hm
        · exact ⟨hc, jsTrim_idem _⟩

/-- C9: after any index build via `loadFromRows`, every key of the index
is a non-empty trimmed string (rows whose key normalizes to `''` are
skipped), and every non-empty code maps to the last row in source order
that normalizes to it (`none` when no row does). -/
theorem loadFromRows_index_invariant (rows : List Row) :
    (∀ q r, (q, r) ∈ (loadFromRows rows).employeeMap → q ≠ "" ∧ jsTrim q = q)
    ∧ ∀ code, code ≠ "" →
        mapGet (loadFromRows rows).employeeMap code = lastRowFor rows code := by
  constructor
  · exact foldl_indexStep_keys rows [] (by simp [mapGet])
  · intro code hcode
    have h := mapGet_foldl_indexStep rows [] code hcode
    rw [loadFromRows] at *
    rw [h]
    cases lastRowFor rows code <;> simp [mapGet]

/-- Two rows whose key fields both normalize to `"X1"`, the first with
surrounding whitespace (used by the C9 witness). -/
def dupRow1 : Row := [("EmployeeCode", .str " X1 "), ("Name", .str "first")]

/-- Second row with code `"X1"` (used by the C9 witness). -/
def dupRow2 : Row := [("EmployeeCode", .str "X1"), ("Name", .str "second")]

/-- Witness for C9 at a concrete input: with two rows normalizing to the
same code `"X1"`, the key is non-empty and trimmed, and the index maps
`"X1"` to the last such row. -/
theorem loadFromRows_index_invariant_witness :
    ("X1" ≠ "" ∧ jsTrim "X1" = "X1")
    ∧ mapGet (loadFromRows [dupRow1, dupRow2]).employeeMap "X1"
        = lastRowFor [dupRow1, dupRow2] "X1" :=
  ⟨(loadFromRows_index_invariant [dupRow1, dupRow2]).1 "X1" dupRow2 (by decide),
   (loadFromRows_index_invariant [dupRow1, dupRow2]).2 "X1" (by decide)⟩

end IEnergy
